import Mathlib

/-!
# Melaleuca-Mirror: verification of the reconciliation sweep and generation handler

Shallow embedding of the two request handlers of the repository:

* `src/src/app/api/sync-sessions/route.ts` — the reconciliation sweep
  (`POST`, write mode) and its dry run (`GET`);
* the generation handler (in `src/src/lib/firebaseAdmin.ts`, second file
  section) — validates the request, extracts an inline image from the
  upstream model response, best-effort persists, and responds.

Modelling conventions:

* Strings (object names, identifiers, messages) are `List Char`; JS string
  operations (startsWith, split-and-pop, includes, endsWith) are
  translated to list operations.
* JS numbers are `Nat` (all timestamps involved are nonnegative integers;
  `parseInt` on an all-digit string is decimal evaluation — the embedding
  ignores IEEE-754 precision loss above 2^53, which no claim exercises).
* `Date.now()` is an explicit `now : Nat` argument.
* The document store (Firestore) is an explicit `Store`: a partial map
  `docs` from session id to document, plus per-id throw oracles `getErr` /
  `setErr` modelling `docRef.get()` / `docRef.set()` raising (the `some`
  value is the thrown error's message).  Exceptions in the TS code become
  branches on these oracles, placed exactly where the corresponding call
  sits in the source.
* The storage listing (bucket.getFiles with the "sessions/" name filter) is an
  explicit list of object names, the handlers' first argument.
-/

/-- The 9-character literal `sessions/` that the sweep regex anchors on. -/
def sessionsLit : List Char := "sessions/".toList

/-- Bucket name used by both handlers (`melaleuca-mirror.firebasestorage.app`). -/
def bucketName : List Char := "melaleuca-mirror.firebasestorage.app".toList

/-- The public URL host `https://storage.googleapis.com/` used in URL derivation. -/
def storageHost : List Char := "https://storage.googleapis.com/".toList

/-- Embedding of `file.name.match` against the anchored session-folder regex,
returning the captured group.

The regex matches iff the name starts with `sessions/`, followed by a
nonempty run of non-`/` characters, followed by `/`.  The capture is that
run: `[^\/]+` is greedy and the following `\/` can only match at the first
`/` after the prefix, so the capture is exactly the segment up to that
slash. -/
def extractSessionId (name : List Char) : Option (List Char) :=
  if sessionsLit.isPrefixOf name then
    let rest := name.drop sessionsLit.length
    let seg := rest.takeWhile (fun c => c ≠ '/')
    if seg ≠ [] ∧ rest.drop seg.length ≠ [] then some seg else none
  else none

/-- Embedding of `Set.add` with JS insertion-order semantics: append if not present. -/
def insertUniq (l : List (List Char)) (x : List Char) : List (List Char) :=
  if x ∈ l then l else l ++ [x]

/-- The `sessionFolders` set (insertion order): distinct captured session
identifiers, in order of first appearance in the listing. -/
def sessionFoldersOf (files : List (List Char)) : List (List Char) :=
  files.foldl
    (fun acc f =>
      match extractSessionId f with
      | some id => insertUniq acc id
      | none => acc)
    []

/-- The per-session object-name path `sessions/<sessionId>/`. -/
def sessPath (sessionId : List Char) : List Char :=
  sessionsLit ++ sessionId ++ ['/']

/-- Embedding of the filter keeping files whose name starts with the
per-session path (line 54 of the route). -/
def sessionFilesOf (files : List (List Char)) (sessionId : List Char) :
    List (List Char) :=
  files.filter (fun f => (sessPath sessionId).isPrefixOf f)

/-- Embedding of the basename computation (split the name at "/" and take
the last piece, or the empty string): the final path segment, empty when
the name ends in a slash. -/
def basename (name : List Char) : List Char :=
  (name.reverse.takeWhile (fun c => c ≠ '/')).reverse

/-- Embedding of the all-digits regex test: nonempty and all ASCII digits. -/
def testAllDigits (s : List Char) : Bool :=
  !s.isEmpty && s.all Char.isDigit

/-- Embedding of `parseInt` on an all-digit string: its decimal value. -/
def digitsVal (s : List Char) : Nat :=
  s.foldl (fun a c => a * 10 + (c.toNat - 48)) 0

/-- The literal head `foundation-` of the try-on filename pattern. -/
def fdnTag : List Char := "foundation-".toList

/-- The literal `.jpg`. -/
def jpgLit : List Char := ".jpg".toList

/-- The attempt of regex `foundation-([^-]+)-(\d+)\.jpg` at one position,
`l` being the text right after a `foundation-` occurrence.  `[^-]+` is
greedy and the following `-` only matches at the first hyphen, so the sku
capture is the run up to the first hyphen (nonempty); `\d+` is greedy and
`\.` cannot match a digit, so the timestamp capture is the maximal digit
run after that hyphen (nonempty), which must be followed by the literal
`.jpg` (the match is unanchored, so trailing text is allowed). -/
def matchAfterTag (l : List Char) : Option (List Char × List Char) :=
  let sku := l.takeWhile (fun c => c ≠ '-')
  match l.dropWhile (fun c => c ≠ '-') with
  | [] => none
  | _ :: r2 =>
    if sku = [] then none
    else
      let ds := r2.takeWhile Char.isDigit
      if ds = [] then none
      else if jpgLit.isPrefixOf (r2.drop ds.length) then some (sku, ds)
      else none

/-- Embedding of the unanchored foundation-filename regex match — leftmost
match semantics:
attempt at each position left to right; a position can only succeed where
the literal `foundation-` occurs, with `matchAfterTag` on the remainder. -/
def findFoundation : List Char → Option (List Char × List Char)
  | [] => none
  | c :: rest =>
    if fdnTag.isPrefixOf (c :: rest) then
      match matchAfterTag ((c :: rest).drop fdnTag.length) with
      | some r => some r
      | none => findFoundation rest
    else findFoundation rest

/-- One `foundationTryons` entry: `{sku, timestamp, imageUrl}`. -/
structure TryonEntry where
  sku : List Char
  timestamp : Nat
  imageUrl : List Char
deriving DecidableEq, Repr

/-- A backfilled session record, with the fields the sweep writes. -/
structure SessionDoc where
  createdAt : Nat
  originalImageUrl : Option (List Char)
  originalMimeType : List Char
  derenderedImageUrl : Option (List Char)
  derenderedMimeType : List Char
  model : List Char
  derenderPrompt : List Char
  foundationTryons : List TryonEntry
  status : List Char
  completedAt : Option Nat
  syncedFromStorage : Bool
  syncedAt : Nat
deriving DecidableEq, Repr

/-- The map over `foundationFiles` (lines 86–95 of the route): parse the
basename against the pattern; on failure fall back to "unknown" /
`Date.now()`; the URL is `https://storage.googleapis.com/<bucket>/<name>`. -/
def mkTryonEntry (now : Nat) (f : List Char) : TryonEntry :=
  let fileName := basename f
  match findFoundation fileName with
  | some (sku, ds) =>
      { sku := sku, timestamp := digitsVal ds
        imageUrl := storageHost ++ bucketName ++ ['/'] ++ f }
  | none =>
      { sku := "unknown".toList, timestamp := now
        imageUrl := storageHost ++ bucketName ++ ['/'] ++ f }

/-- Embedding of the foundation-file filter (line 81 of the route): the
name includes "foundation-" and ends with ".jpg". -/
def foundationFilesOf (sessionFiles : List (List Char)) : List (List Char) :=
  sessionFiles.filter (fun f => decide (fdnTag <:+: f) && jpgLit.isSuffixOf f)

/-- Core of the document synthesis, given the already-filtered per-session
file list (lines 49–96 of the route). -/
def buildCore (sessionFiles : List (List Char)) (sessionId : List Char)
    (now : Nat) : SessionDoc :=
  let createdAt := if testAllDigits sessionId then digitsVal sessionId else now
  let fileNames := sessionFiles.map basename
  let hasOriginal := "original.jpg".toList ∈ fileNames
  let hasDerendered := "derendered.jpg".toList ∈ fileNames
  let foundationFiles := foundationFilesOf sessionFiles
  { createdAt := createdAt
    originalImageUrl :=
      if hasOriginal then
        some (storageHost ++ bucketName ++ ['/'] ++ sessPath sessionId ++ "original.jpg".toList)
      else none
    originalMimeType := "image/jpeg".toList
    derenderedImageUrl :=
      if hasDerendered then
        some (storageHost ++ bucketName ++ ['/'] ++ sessPath sessionId ++ "derendered.jpg".toList)
      else none
    derenderedMimeType := "image/jpeg".toList
    model := "gemini-3-pro-image-preview".toList
    derenderPrompt := "Synced from storage - original prompt not available".toList
    foundationTryons :=
      if foundationFiles.length > 0 then foundationFiles.map (mkTryonEntry now)
      else []
    status := "active".toList
    completedAt := none
    syncedFromStorage := true
    syncedAt := now }

/-- The session document the sweep synthesizes for `sessionId` from the
full listing. -/
def buildSessionDoc (files : List (List Char)) (sessionId : List Char)
    (now : Nat) : SessionDoc :=
  buildCore (sessionFilesOf files sessionId) sessionId now

/-- The document store: current documents plus per-id throw oracles for
`docRef.get()` and `docRef.set()` (`some msg` = the call throws an error
whose `.message` is `msg`). -/
structure Store where
  docs : List Char → Option SessionDoc
  getErr : List Char → Option (List Char)
  setErr : List Char → Option (List Char)

/-- One entry of `results.details`: `{sessionId, status, error?}`. -/
structure Detail where
  sessionId : List Char
  status : List Char
  error : Option (List Char)
deriving DecidableEq, Repr

/-- The sweep's tally (`results` object of the POST handler). -/
structure SweepResults where
  totalFolders : Nat
  alreadySynced : Nat
  newlyCreated : Nat
  failed : Nat
  details : List Detail
deriving DecidableEq, Repr

/-- Record one failed identifier (the `catch` block, lines 103–111). -/
def addFailed (res : SweepResults) (sessionId msg : List Char) : SweepResults :=
  { res with failed := res.failed + 1
             details := res.details ++ [⟨sessionId, "failed".toList, some msg⟩] }

/-- Record one already-existing identifier (lines 42–46). -/
def addAlready (res : SweepResults) (sessionId : List Char) : SweepResults :=
  { res with alreadySynced := res.alreadySynced + 1
             details := res.details ++ [⟨sessionId, "already_exists".toList, none⟩] }

/-- Record one newly created identifier (lines 99–100). -/
def addCreated (res : SweepResults) (sessionId : List Char) : SweepResults :=
  { res with newlyCreated := res.newlyCreated + 1
             details := res.details ++ [⟨sessionId, "created".toList, none⟩] }

/-- One iteration of the sweep's `for` loop (lines 37–112): get the
document (may throw), skip if it exists, otherwise synthesize and set
(may throw); any throw is caught per-iteration and tallied as failed. -/
def processOne (files : List (List Char)) (now : Nat)
    (acc : Store × SweepResults) (sessionId : List Char) :
    Store × SweepResults :=
  let st := acc.1
  let res := acc.2
  match st.getErr sessionId with
  | some msg => (st, addFailed res sessionId msg)
  | none =>
    match st.docs sessionId with
    | some _ => (st, addAlready res sessionId)
    | none =>
      let doc := buildSessionDoc files sessionId now
      match st.setErr sessionId with
      | some msg => (st, addFailed res sessionId msg)
      | none =>
        ({ st with docs := fun k => if k = sessionId then some doc else st.docs k },
         addCreated res sessionId)

/-- The tally as initialised on lines 29–35 of the route. -/
def sweepInit (files : List (List Char)) : SweepResults :=
  { totalFolders := (sessionFoldersOf files).length, alreadySynced := 0
    newlyCreated := 0, failed := 0, details := [] }

/-- The write-mode sweep (POST handler body after auth and listing):
fold the loop over the distinct identifiers, starting from the tally
initialised with `totalFolders`.  Returns the updated store and the
tally. -/
def sweep (files : List (List Char)) (now : Nat) (st : Store) :
    Store × SweepResults :=
  (sessionFoldersOf files).foldl (processOne files now) (st, sweepInit files)

/-- The POST response once the listing succeeded and auth passed: the loop
never throws (every iteration catches), so the handler always reaches
`NextResponse.json(results)` — status 200 with the tally. -/
def sweepPOST (files : List (List Char)) (now : Nat) (st : Store) :
    Nat × SweepResults :=
  (200, (sweep files now st).2)

/-- The dry run's tally (`results` object of the GET handler). -/
structure DryResults where
  totalFolders : Nat
  inFirestore : Nat
  missingFromFirestore : Nat
  missing : List (List Char)
deriving DecidableEq, Repr

/-- The GET handler's loop body (lines 147–157): `docRef.get()` with **no**
per-iteration catch — a throw propagates out of the loop. -/
def dryStep (st : Store) (res : DryResults) (sessionId : List Char) :
    Except (List Char) DryResults :=
  match st.getErr sessionId with
  | some msg => Except.error msg
  | none =>
    match st.docs sessionId with
    | some _ => Except.ok { res with inFirestore := res.inFirestore + 1 }
    | none =>
      Except.ok { res with
        missingFromFirestore := res.missingFromFirestore + 1
        missing := res.missing ++ [sessionId] }

/-- The dry run (GET handler body inside the outer `try`): the same
listing/grouping as the sweep, then the read-only loop; the first
document-store throw aborts the whole computation. -/
def dryInit (files : List (List Char)) : DryResults :=
  { totalFolders := (sessionFoldersOf files).length, inFirestore := 0
    missingFromFirestore := 0, missing := [] }

def dryRun (files : List (List Char)) (st : Store) :
    Except (List Char) DryResults :=
  (sessionFoldersOf files).foldlM (dryStep st) (dryInit files)

/-- The GET response body: the tally plus message on success, or the
generic 500 body `{error: "Internal Server Error", details}` from the
outer `catch`. -/
inductive GetBody where
  | ok (results : DryResults) (message : List Char)
  | err (error : List Char) (details : List Char)
deriving DecidableEq, Repr

/-- The GET handler: status and body.  A throw anywhere inside the `try`
(in particular any `docRef.get()` in the loop) reaches the outer `catch`,
which returns status 500 with the generic error body — no tally. -/
def dryRunGET (files : List (List Char)) (st : Store) : Nat × GetBody :=
  match dryRun files st with
  | Except.ok r =>
      (200,
        GetBody.ok r
          ((Nat.repr r.missingFromFirestore).toList ++
            " sessions in Storage are missing from Firestore. Use POST to sync them.".toList))
  | Except.error msg =>
      (500, GetBody.err "Internal Server Error".toList msg)

/-!
## Generation handler

Embedding of the `POST` handler in the second section of
`src/src/lib/firebaseAdmin.ts`.  The upstream model response is an input:
`candidates` mirrors `response.candidates` (the code inspects only the
first candidate's `content.parts`), and `text` models what the SDK
accessor `response.text()` returns — `none` when the response carries no
text (JS `undefined`), in which case the serialized body has no `rawText`
field.  The persistence block (two storage uploads plus one document
write, lines 104–152) is wrapped in its own `try/catch` whose `catch` only
logs, so its outcome is an input `persist` that cannot influence the
response; the `stored` flag of the outcome records whether it succeeded. -/

/-- An inline-data response part payload: `{data, mimeType}`. -/
structure InlineData where
  data : List Char
  mimeType : List Char
deriving DecidableEq, Repr

/-- One response part: optional inline image data, optional text. -/
structure RespPart where
  inlineData : Option InlineData
  text : Option (List Char)
deriving DecidableEq, Repr

/-- One response candidate (its `content.parts`). -/
structure Candidate where
  parts : List RespPart
deriving DecidableEq, Repr

/-- The upstream model response as the handler consumes it. -/
structure GenResponse where
  candidates : List Candidate
  text : Option (List Char)
deriving DecidableEq, Repr

/-- The generation request body `{image, mimeType}` (both may be absent). -/
structure GenRequest where
  image : Option (List Char)
  mimeType : Option (List Char)
deriving DecidableEq, Repr

/-- JS falsiness of an optional string (`undefined`, `null` or `""`). -/
def isFalsyStr : Option (List Char) → Bool
  | none => true
  | some s => s.isEmpty

/-- Embedding of the inline-image search: the first part of the first
candidate whose inlineData is present (optional chaining throughout). -/
def findInline (resp : GenResponse) : Option InlineData :=
  match resp.candidates.head? with
  | none => none
  | some c =>
    match c.parts.find? (fun p => p.inlineData.isSome) with
    | none => none
    | some p => p.inlineData

/-- The generation handler's response body variants. -/
inductive GenBody where
  | image (image : List Char) (mimeType : List Char)
  | noImage (error : List Char) (rawText : Option (List Char))
  | err (error : List Char)
deriving DecidableEq, Repr

/-- A generation-handler outcome: HTTP status, body, and whether the
best-effort persistence succeeded (a side effect, not part of the
response). -/
structure GenOutcome where
  status : Nat
  body : GenBody
  stored : Bool
deriving DecidableEq, Repr

/-- The generation handler (lines 34–171 of the source): validate the
request (`!image` → 400), check the API key (`!apiKey` → 500), then
extract an inline image part from the first candidate.  If one is found,
attempt persistence (caught; never fails the request) and respond 200
with the image bytes and MIME type; otherwise respond 200 with the
"No image generated by model" payload carrying `response.text()`. -/
def generatePOST (req : GenRequest) (apiKey : Option (List Char))
    (resp : GenResponse) (persist : Except (List Char) Unit) : GenOutcome :=
  if isFalsyStr req.image then
    { status := 400, body := GenBody.err "Image data is required".toList, stored := false }
  else if isFalsyStr apiKey then
    { status := 500, body := GenBody.err "GOOGLE_API_KEY is not set".toList, stored := false }
  else
    match findInline resp with
    | some imageOutput =>
      { status := 200
        body := GenBody.image imageOutput.data imageOutput.mimeType
        stored := persist.isOk }
    | none =>
      { status := 200
        body := GenBody.noImage "No image generated by model".toList resp.text
        stored := false }

/-!
## Lemmas about the grouping of the listing into session folders
-/

lemma mem_insertUniq {l : List (List Char)} {x y : List Char} :
    y ∈ insertUniq l x ↔ y ∈ l ∨ y = x := by
  unfold insertUniq
  split
  · rename_i hx
    constructor
    · exact Or.inl
    · rintro (h | rfl) <;> assumption
  · simp

lemma nodup_insertUniq {l : List (List Char)} {x : List Char} (h : l.Nodup) :
    (insertUniq l x).Nodup := by
  unfold insertUniq
  split
  · exact h
  · rename_i hx
    simp [List.nodup_append, h, hx]

/-- One step of the `forEach` that fills the `sessionFolders` set. -/
def addFolder (acc : List (List Char)) (f : List Char) : List (List Char) :=
  match extractSessionId f with
  | some id => insertUniq acc id
  | none => acc

lemma sessionFoldersOf_eq_foldl (files : List (List Char)) :
    sessionFoldersOf files = files.foldl addFolder [] := by
  unfold sessionFoldersOf addFolder
  rfl

lemma mem_foldl_addFolder :
    ∀ (files : List (List Char)) (acc : List (List Char)) (y : List Char),
      y ∈ files.foldl addFolder acc ↔
        y ∈ acc ∨ ∃ f ∈ files, extractSessionId f = some y := by
  intro files
  induction files with
  | nil => simp
  | cons f fs ih =>
    intro acc y
    rw [List.foldl_cons, ih]
    unfold addFolder
    rcases hf : extractSessionId f with _ | id
    · simp [hf]
    · rw [mem_insertUniq]
      constructor
      · rintro ((h | rfl) | h)
        · exact Or.inl h
        · exact Or.inr ⟨f, by simp, hf⟩
        · rcases h with ⟨g, hg, hgy⟩
          exact Or.inr ⟨g, by simp [hg], hgy⟩
      · rintro (h | ⟨g, hg, hgy⟩)
        · exact Or.inl (Or.inl h)
        · rcases List.mem_cons.mp hg with rfl | hg'
          · rw [hf] at hgy
            exact Or.inl (Or.inr (Option.some_injective _ hgy).symm)
          · exact Or.inr ⟨g, hg', hgy⟩

lemma nodup_foldl_addFolder :
    ∀ (files : List (List Char)) (acc : List (List Char)),
      acc.Nodup → (files.foldl addFolder acc).Nodup := by
  intro files
  induction files with
  | nil => simp
  | cons f fs ih =>
    intro acc hacc
    rw [List.foldl_cons]
    apply ih
    unfold addFolder
    rcases extractSessionId f with _ | id
    · exact hacc
    · exact nodup_insertUniq hacc

lemma mem_sessionFoldersOf {files : List (List Char)} {y : List Char} :
    y ∈ sessionFoldersOf files ↔ ∃ f ∈ files, extractSessionId f = some y := by
  rw [sessionFoldersOf_eq_foldl, mem_foldl_addFolder]
  simp

lemma nodup_sessionFoldersOf (files : List (List Char)) :
    (sessionFoldersOf files).Nodup := by
  rw [sessionFoldersOf_eq_foldl]
  exact nodup_foldl_addFolder files [] List.nodup_nil

lemma length_sessionFoldersOf (files : List (List Char)) :
    (sessionFoldersOf files).length =
      (files.filterMap extractSessionId).toFinset.card := by
  have htf : (sessionFoldersOf files).toFinset =
      (files.filterMap extractSessionId).toFinset := by
    ext y
    simp only [List.mem_toFinset, mem_sessionFoldersOf, List.mem_filterMap]
  rw [← List.toFinset_card_of_nodup (nodup_sessionFoldersOf files), htf]

/-!
## Lemmas about the sweep's loop
-/

lemma processOne_getErr (files : List (List Char)) (now : Nat)
    (st : Store) (res : SweepResults) (id : List Char) :
    (processOne files now (st, res) id).1.getErr = st.getErr := by
  dsimp only [processOne]
  rcases st.getErr id with _ | msg
  · rcases st.docs id with _ | d
    · rcases st.setErr id with _ | msg' <;> rfl
    · rfl
  · rfl

lemma processOne_setErr (files : List (List Char)) (now : Nat)
    (st : Store) (res : SweepResults) (id : List Char) :
    (processOne files now (st, res) id).1.setErr = st.setErr := by
  dsimp only [processOne]
  rcases st.getErr id with _ | msg
  · rcases st.docs id with _ | d
    · rcases st.setErr id with _ | msg' <;> rfl
    · rfl
  · rfl

lemma processOne_tally (files : List (List Char)) (now : Nat)
    (st : Store) (res : SweepResults) (id : List Char) :
    (processOne files now (st, res) id).2.totalFolders = res.totalFolders ∧
    (processOne files now (st, res) id).2.alreadySynced +
        (processOne files now (st, res) id).2.newlyCreated +
        (processOne files now (st, res) id).2.failed =
      res.alreadySynced + res.newlyCreated + res.failed + 1 ∧
    ∃ d : Detail, d.sessionId = id ∧
      (processOne files now (st, res) id).2.details = res.details ++ [d] := by
  dsimp only [processOne]
  rcases st.getErr id with _ | msg
  · rcases st.docs id with _ | d
    · rcases st.setErr id with _ | msg'
      · refine ⟨rfl, by simp [addCreated]; omega, ⟨_, rfl, rfl⟩⟩
      · refine ⟨rfl, by simp [addFailed]; omega, ⟨_, rfl, rfl⟩⟩
    · refine ⟨rfl, by simp [addAlready]; omega, ⟨_, rfl, rfl⟩⟩
  · refine ⟨rfl, by simp [addFailed]; omega, ⟨_, rfl, rfl⟩⟩

lemma foldl_processOne_tally (files : List (List Char)) (now : Nat) :
    ∀ (ids : List (List Char)) (st : Store) (res : SweepResults),
      (ids.foldl (processOne files now) (st, res)).2.totalFolders = res.totalFolders ∧
      (ids.foldl (processOne files now) (st, res)).2.alreadySynced +
          (ids.foldl (processOne files now) (st, res)).2.newlyCreated +
          (ids.foldl (processOne files now) (st, res)).2.failed =
        res.alreadySynced + res.newlyCreated + res.failed + ids.length ∧
      (ids.foldl (processOne files now) (st, res)).2.details.map Detail.sessionId =
        res.details.map Detail.sessionId ++ ids := by
  intro ids
  induction ids with
  | nil => simp
  | cons id rest ih =>
    intro st res
    rw [List.foldl_cons]
    rcases hp : processOne files now (st, res) id with ⟨st', res'⟩
    obtain ⟨ht, hs, d, hd, hdet⟩ := processOne_tally files now st res id
    rw [hp] at ht hs hdet
    obtain ⟨iht, ihs, ihdet⟩ := ih st' res'
    dsimp only at ht hs hdet
    refine ⟨by rw [iht, ht], ?_, ?_⟩
    · rw [ihs, hs]
      simp only [List.length_cons]
      omega
    · rw [ihdet, hdet]
      simp [hd]

lemma processOne_fail_get (files : List (List Char)) (now : Nat)
    (st : Store) (res : SweepResults) (id msg : List Char)
    (h : st.getErr id = some msg) :
    processOne files now (st, res) id = (st, addFailed res id msg) := by
  simp only [processOne, h]

lemma processOne_already (files : List (List Char)) (now : Nat)
    (st : Store) (res : SweepResults) (id : List Char) (d : SessionDoc)
    (hg : st.getErr id = none) (hd : st.docs id = some d) :
    processOne files now (st, res) id = (st, addAlready res id) := by
  simp only [processOne, hg, hd]

lemma processOne_fail_set (files : List (List Char)) (now : Nat)
    (st : Store) (res : SweepResults) (id msg : List Char)
    (hg : st.getErr id = none) (hd : st.docs id = none)
    (hs : st.setErr id = some msg) :
    processOne files now (st, res) id = (st, addFailed res id msg) := by
  simp only [processOne, hg, hd, hs]

lemma processOne_create (files : List (List Char)) (now : Nat)
    (st : Store) (res : SweepResults) (id : List Char)
    (hg : st.getErr id = none) (hd : st.docs id = none)
    (hs : st.setErr id = none) :
    processOne files now (st, res) id =
      ({ st with docs := fun k =>
          if k = id then some (buildSessionDoc files id now) else st.docs k },
       addCreated res id) := by
  simp only [processOne, hg, hd, hs]

lemma foldl_getErr (files : List (List Char)) (now : Nat) :
    ∀ (ids : List (List Char)) (st : Store) (res : SweepResults),
      ((ids.foldl (processOne files now) (st, res)).1).getErr = st.getErr ∧
      ((ids.foldl (processOne files now) (st, res)).1).setErr = st.setErr := by
  intro ids
  induction ids with
  | nil => simp
  | cons id rest ih =>
    intro st res
    rw [List.foldl_cons]
    rcases hp : processOne files now (st, res) id with ⟨st', res'⟩
    have hg := processOne_getErr files now st res id
    have hs := processOne_setErr files now st res id
    rw [hp] at hg hs
    obtain ⟨ihg, ihs⟩ := ih st' res'
    exact ⟨by rw [ihg]; exact hg, by rw [ihs]; exact hs⟩

lemma foldl_clean_spec (files : List (List Char)) (now : Nat) :
    ∀ (ids : List (List Char)) (st : Store) (res : SweepResults),
      (∀ id ∈ ids, st.getErr id = none ∧ st.setErr id = none) →
      (ids.foldl (processOne files now) (st, res)).2.failed = res.failed ∧
      (ids.foldl (processOne files now) (st, res)).2.alreadySynced +
          (ids.foldl (processOne files now) (st, res)).2.newlyCreated =
        res.alreadySynced + res.newlyCreated + ids.length ∧
      ∃ ds : List Detail,
        (ids.foldl (processOne files now) (st, res)).2.details = res.details ++ ds ∧
        ds.map Detail.sessionId = ids ∧
        ∀ d ∈ ds, d.status = "already_exists".toList ∨ d.status = "created".toList := by
  intro ids
  induction ids with
  | nil => intro st res _; exact ⟨rfl, by simp, [], by simp, rfl, by simp⟩
  | cons id rest ih =>
    intro st res h
    obtain ⟨hg, hsE⟩ := h id (by simp)
    have hrest : ∀ i ∈ rest, st.getErr i = none ∧ st.setErr i = none :=
      fun i hi => h i (by simp [hi])
    rw [List.foldl_cons]
    rcases hd : st.docs id with _ | d
    · rw [processOne_create files now st res id hg hd hsE]
      set st' : Store :=
        { st with docs := fun k =>
            if k = id then some (buildSessionDoc files id now) else st.docs k } with hst'
      obtain ⟨ihf, ihs, ds, ihdet, ihmap, ihstat⟩ :=
        ih st' (addCreated res id) (fun i hi => hrest i hi)
      refine ⟨?_, ?_, ⟨id, "created".toList, none⟩ :: ds, ?_, ?_, ?_⟩
      · rw [ihf]; rfl
      · rw [ihs]; simp [addCreated]; omega
      · rw [ihdet]; simp [addCreated]
      · simp [ihmap]
      · intro d hdm
        rcases List.mem_cons.mp hdm with rfl | hdm2
        · simp
        · exact ihstat d hdm2
    · rw [processOne_already files now st res id d hg hd]
      obtain ⟨ihf, ihs, ds, ihdet, ihmap, ihstat⟩ :=
        ih st (addAlready res id) (fun i hi => hrest i hi)
      refine ⟨?_, ?_, ⟨id, "already_exists".toList, none⟩ :: ds, ?_, ?_, ?_⟩
      · rw [ihf]; rfl
      · rw [ihs]; simp [addAlready]; omega
      · rw [ihdet]; simp [addAlready]
      · simp [ihmap]
      · intro d hdm
        rcases List.mem_cons.mp hdm with rfl | hdm2
        · simp
        · exact ihstat d hdm2

lemma foldl_allPresent (files : List (List Char)) (now : Nat) :
    ∀ (ids : List (List Char)) (st : Store) (res : SweepResults),
      (∀ id ∈ ids, st.getErr id = none ∧ (st.docs id).isSome) →
      (ids.foldl (processOne files now) (st, res)).1 = st ∧
      (ids.foldl (processOne files now) (st, res)).2.alreadySynced =
        res.alreadySynced + ids.length ∧
      (ids.foldl (processOne files now) (st, res)).2.newlyCreated = res.newlyCreated ∧
      (ids.foldl (processOne files now) (st, res)).2.failed = res.failed := by
  intro ids
  induction ids with
  | nil => intro st res _; exact ⟨rfl, by simp, rfl, rfl⟩
  | cons id rest ih =>
    intro st res h
    obtain ⟨hg, hsome⟩ := h id (by simp)
    obtain ⟨d, hd⟩ := Option.isSome_iff_exists.mp hsome
    rw [List.foldl_cons, processOne_already files now st res id d hg hd]
    obtain ⟨ih1, ih2, ih3, ih4⟩ :=
      ih st (addAlready res id) (fun i hi => h i (by simp [hi]))
    refine ⟨ih1, ?_, by rw [ih3]; rfl, by rw [ih4]; rfl⟩
    rw [ih2]
    simp [addAlready]
    omega

lemma foldl_docs_benign (files : List (List Char)) (now : Nat) :
    ∀ (ids : List (List Char)) (st : Store) (res : SweepResults) (k : List Char),
      (∀ id ∈ ids, st.getErr id = none ∧ st.setErr id = none) →
      ((ids.foldl (processOne files now) (st, res)).1).docs k =
        Option.or (st.docs k)
          (if k ∈ ids then some (buildSessionDoc files k now) else none) := by
  intro ids
  induction ids with
  | nil => intro st res k _; simp
  | cons id rest ih =>
    intro st res k h
    obtain ⟨hg, hsE⟩ := h id (by simp)
    have hrest : ∀ i ∈ rest, st.getErr i = none ∧ st.setErr i = none :=
      fun i hi => h i (by simp [hi])
    rw [List.foldl_cons]
    rcases hd : st.docs id with _ | d
    · rw [processOne_create files now st res id hg hd hsE]
      have hih := ih
        { st with docs := fun k2 =>
            if k2 = id then some (buildSessionDoc files id now) else st.docs k2 }
        (addCreated res id) k (fun i hi => hrest i hi)
      rw [hih]
      by_cases hk : k = id
      · subst hk
        simp [hd]
      · have hmem : (k ∈ id :: rest) ↔ (k ∈ rest) := by
          simp [List.mem_cons, hk]
        simp only [hmem, hk, if_false]
    · rw [processOne_already files now st res id d hg hd]
      rw [ih st (addAlready res id) k (fun i hi => hrest i hi)]
      by_cases hk : k = id
      · subst hk
        simp [hd]
      · have hmem : (k ∈ id :: rest) ↔ (k ∈ rest) := by
          simp [List.mem_cons, hk]
        simp only [hmem]

/-!
## Claims C1 and C2
-/

/-- **C1** — For every storage listing whose objects under the `sessions/`
prefix span n distinct session identifiers (first path segment after the
prefix), a full write-mode sweep (POST) returns status 200 and a tally
with `totalFolders = n`, `alreadySynced + newlyCreated + failed = n`, and
one detail entry per identifier (the details' identifiers are exactly the
distinct identifiers, each once). -/
theorem c1_sweep_tally (files : List (List Char)) (now : Nat) (st : Store) :
    (sweepPOST files now st).1 = 200 ∧
    (sweepPOST files now st).2.totalFolders =
      (files.filterMap extractSessionId).toFinset.card ∧
    (sweepPOST files now st).2.alreadySynced +
        (sweepPOST files now st).2.newlyCreated +
        (sweepPOST files now st).2.failed =
      (sweepPOST files now st).2.totalFolders ∧
    (sweepPOST files now st).2.details.map Detail.sessionId =
      sessionFoldersOf files ∧
    (sessionFoldersOf files).Nodup := by
  obtain ⟨ht, hs, hdet⟩ :=
    foldl_processOne_tally files now (sessionFoldersOf files) st (sweepInit files)
  simp only [sweepPOST, sweep]
  refine ⟨trivial, ?_, ?_, ?_, nodup_sessionFoldersOf files⟩
  · rw [ht]
    simp [sweepInit, length_sessionFoldersOf]
  · rw [hs, ht]
    simp [sweepInit]
  · rw [hdet]
    simp [sweepInit]

/-- **C2** — The sweep never overwrites an existing session record (after
the first run, each identifier's document is the pre-existing one if there
was one, else the newly synthesized one, and nothing else changed), so
running the write-mode sweep twice in succession with no intervening
storage or document-store changes yields, on the second run over n
identifiers, `newlyCreated = 0` and `alreadySynced = n` (`= totalFolders`,
with `failed = 0`). -/
theorem c2_sweep_idempotent (files : List (List Char)) (now1 now2 : Nat)
    (docs0 : List Char → Option SessionDoc) :
    (∀ k, ((sweep files now1 ⟨docs0, fun _ => none, fun _ => none⟩).1).docs k =
        Option.or (docs0 k)
          (if k ∈ sessionFoldersOf files
           then some (buildSessionDoc files k now1) else none)) ∧
    (sweep files now2
        ((sweep files now1 ⟨docs0, fun _ => none, fun _ => none⟩).1)).2.newlyCreated
      = 0 ∧
    (sweep files now2
        ((sweep files now1 ⟨docs0, fun _ => none, fun _ => none⟩).1)).2.failed
      = 0 ∧
    (sweep files now2
        ((sweep files now1 ⟨docs0, fun _ => none, fun _ => none⟩).1)).2.alreadySynced
      = (sweep files now2
          ((sweep files now1 ⟨docs0, fun _ => none, fun _ => none⟩).1)).2.totalFolders := by
  set st0 : Store := ⟨docs0, fun _ => none, fun _ => none⟩ with hst0
  have hbenign : ∀ id ∈ sessionFoldersOf files,
      st0.getErr id = none ∧ st0.setErr id = none := fun id _ => ⟨rfl, rfl⟩
  have hdocs : ∀ k, ((sweep files now1 st0).1).docs k =
      Option.or (docs0 k)
        (if k ∈ sessionFoldersOf files
         then some (buildSessionDoc files k now1) else none) := by
    intro k
    simp only [sweep]
    exact foldl_docs_benign files now1 (sessionFoldersOf files) st0
      (sweepInit files) k hbenign
  have herr := foldl_getErr files now1 (sessionFoldersOf files) st0 (sweepInit files)
  have hpresent : ∀ id ∈ sessionFoldersOf files,
      ((sweep files now1 st0).1).getErr id = none ∧
      (((sweep files now1 st0).1).docs id).isSome := by
    intro id hid
    constructor
    · show ((sweep files now1 st0).1).getErr id = none
      simp only [sweep]
      rw [herr.1]
    · rw [hdocs id]
      rcases docs0 id with _ | d
      · simp [hid]
      · simp
  obtain ⟨_, h2, h3, h4⟩ :=
    foldl_allPresent files now2 (sessionFoldersOf files)
      ((sweep files now1 st0).1) (sweepInit files) hpresent
  obtain ⟨ht2, _, _⟩ :=
    foldl_processOne_tally files now2 (sessionFoldersOf files)
      ((sweep files now1 st0).1) (sweepInit files)
  refine ⟨hdocs, ?_, ?_, ?_⟩
  · show (List.foldl (processOne files now2) ((sweep files now1 st0).1, sweepInit files)
        (sessionFoldersOf files)).2.newlyCreated = 0
    rw [h3]
    rfl
  · show (List.foldl (processOne files now2) ((sweep files now1 st0).1, sweepInit files)
        (sessionFoldersOf files)).2.failed = 0
    rw [h4]
    rfl
  · show (List.foldl (processOne files now2) ((sweep files now1 st0).1, sweepInit files)
        (sessionFoldersOf files)).2.alreadySynced =
      (List.foldl (processOne files now2) ((sweep files now1 st0).1, sweepInit files)
        (sessionFoldersOf files)).2.totalFolders
    rw [h2, ht2]
    simp [sweepInit]

/-!
## Claim C9 — the dry run has no per-identifier failure isolation
-/

lemma foldlM_dryStep_error (st : Store) :
    ∀ (ids : List (List Char)) (res : DryResults),
      (∃ id ∈ ids, st.getErr id ≠ none) →
      ∃ msg, ids.foldlM (dryStep st) res = Except.error msg := by
  intro ids
  induction ids with
  | nil => simp
  | cons id rest ih =>
    intro res hex
    rw [List.foldlM_cons]
    rcases hg : st.getErr id with _ | msg
    · have hex' : ∃ i ∈ rest, st.getErr i ≠ none := by
        rcases hex with ⟨i, hi, hne⟩
        rcases List.mem_cons.mp hi with rfl | hi'
        · exact absurd hg hne
        · exact ⟨i, hi', hne⟩
      have hstep : dryStep st res id = Except.ok
          (match st.docs id with
           | some _ => { res with inFirestore := res.inFirestore + 1 }
           | none => { res with
               missingFromFirestore := res.missingFromFirestore + 1
               missing := res.missing ++ [id] }) := by
        dsimp only [dryStep]
        rw [hg]
        rcases st.docs id with _ | d <;> rfl
      rw [hstep]
      exact ih _ hex'
    · have hstep : dryStep st res id = Except.error msg := by
        dsimp only [dryStep]
        rw [hg]
      rw [hstep]
      exact ⟨msg, rfl⟩

/-- **C9** (implicit) — Unlike the write-mode sweep, the dry-run GET
endpoint has no per-identifier failure isolation: if any document-store
read in its loop throws, the whole request returns HTTP 500 with the
generic error body (`{error: "Internal Server Error", details}`) and no
tally (`totalFolders` / `inFirestore` / `missing`) is reported. -/
theorem c9_dry_run_aborts (files : List (List Char)) (st : Store)
    (h : ∃ id ∈ sessionFoldersOf files, st.getErr id ≠ none) :
    (dryRunGET files st).1 = 500 ∧
    ∃ msg, (dryRunGET files st).2 =
      GetBody.err "Internal Server Error".toList msg := by
  obtain ⟨msg, hmsg⟩ := foldlM_dryStep_error st (sessionFoldersOf files) (dryInit files) h
  have : dryRun files st = Except.error msg := hmsg
  constructor
  · simp [dryRunGET, this]
  · exact ⟨msg, by simp [dryRunGET, this]⟩

/-- Witness for C9: a concrete listing with two sessions and a store whose
read for `s1` throws; the GET returns 500 with the generic error body. -/
theorem c9_dry_run_aborts_witness :
    (dryRunGET
        ["sessions/s1/original.jpg".toList, "sessions/s2/original.jpg".toList]
        ⟨fun _ => none,
         fun k => if k = "s1".toList then some "boom".toList else none,
         fun _ => none⟩).1 = 500 ∧
    ∃ msg, (dryRunGET
        ["sessions/s1/original.jpg".toList, "sessions/s2/original.jpg".toList]
        ⟨fun _ => none,
         fun k => if k = "s1".toList then some "boom".toList else none,
         fun _ => none⟩).2 =
      GetBody.err "Internal Server Error".toList msg :=
  c9_dry_run_aborts
    ["sessions/s1/original.jpg".toList, "sessions/s2/original.jpg".toList]
    ⟨fun _ => none,
     fun k => if k = "s1".toList then some "boom".toList else none,
     fun _ => none⟩
    (by decide)

/-!
## Claim C6 — per-identifier failure isolation in the write-mode sweep
-/

/-- **C6** — A failure while processing one session identifier (its
document-store read throwing, or its write throwing) increments only the
`failed` counter and adds a detail entry with status "failed" and the
error message for that identifier; every other identifier in the listing
is still processed (one detail entry each, with a non-failed status when
the store behaves for it), and the sweep still returns a 200 tally. -/
theorem c6_failure_isolated (files : List (List Char)) (now : Nat) (st : Store)
    (b msg : List Char) (l1 l2 : List (List Char))
    (hids : sessionFoldersOf files = l1 ++ b :: l2)
    (h1 : ∀ id ∈ l1, st.getErr id = none ∧ st.setErr id = none)
    (h2 : ∀ id ∈ l2, st.getErr id = none ∧ st.setErr id = none)
    (hfail : st.getErr b = some msg ∨
      (st.getErr b = none ∧ st.docs b = none ∧ st.setErr b = some msg)) :
    (sweepPOST files now st).1 = 200 ∧
    (sweepPOST files now st).2.failed = 1 ∧
    (sweepPOST files now st).2.alreadySynced +
        (sweepPOST files now st).2.newlyCreated + 1 =
      (sweepPOST files now st).2.totalFolders ∧
    Detail.mk b "failed".toList (some msg) ∈ (sweepPOST files now st).2.details ∧
    (sweepPOST files now st).2.details.map Detail.sessionId = l1 ++ b :: l2 ∧
    ∀ d ∈ (sweepPOST files now st).2.details, d.sessionId ≠ b →
      d.status = "already_exists".toList ∨ d.status = "created".toList := by
  have hnd := nodup_sessionFoldersOf files
  rw [hids, List.nodup_append] at hnd
  obtain ⟨hndl1, hndbl2, hdisj⟩ := hnd
  have hb1 : b ∉ l1 := fun hb => hdisj hb (List.mem_cons_self b l2)
  have hsweep : sweep files now st =
      List.foldl (processOne files now)
        (processOne files now
          (List.foldl (processOne files now) (st, sweepInit files) l1) b) l2 := by
    simp only [sweep, hids, List.foldl_append, List.foldl_cons]
  rcases hl1 : List.foldl (processOne files now) (st, sweepInit files) l1
    with ⟨st1, res1⟩
  have herr1 := foldl_getErr files now l1 st (sweepInit files)
  rw [hl1] at herr1 hsweep
  dsimp only at herr1
  have hclean1 := foldl_clean_spec files now l1 st (sweepInit files) h1
  rw [hl1] at hclean1
  dsimp only at hclean1
  obtain ⟨hf1, hs1, ds1, hdet1, hmap1, hstat1⟩ := hclean1
  have hdocsb : st1.docs b = st.docs b := by
    have hdb := foldl_docs_benign files now l1 st (sweepInit files) b h1
    rw [hl1] at hdb
    dsimp only at hdb
    rw [hdb]
    simp [hb1]
  have hstep : processOne files now (st1, res1) b = (st1, addFailed res1 b msg) := by
    rcases hfail with hg | ⟨hg, hdN, hsS⟩
    · exact processOne_fail_get files now st1 res1 b msg (by rw [herr1.1]; exact hg)
    · exact processOne_fail_set files now st1 res1 b msg (by rw [herr1.1]; exact hg)
        (by rw [hdocsb]; exact hdN) (by rw [herr1.2]; exact hsS)
  rw [hstep] at hsweep
  have h2' : ∀ id ∈ l2, st1.getErr id = none ∧ st1.setErr id = none := by
    intro i hi
    rw [herr1.1, herr1.2]
    exact h2 i hi
  obtain ⟨hf2, hs2, ds2, hdet2, hmap2, hstat2⟩ :=
    foldl_clean_spec files now l2 st1 (addFailed res1 b msg) h2'
  obtain ⟨htot, _, _⟩ :=
    foldl_processOne_tally files now (sessionFoldersOf files) st (sweepInit files)
  have hR2 : (sweepPOST files now st).2 =
      (List.foldl (processOne files now) (st1, addFailed res1 b msg) l2).2 := by
    simp only [sweepPOST, hsweep]
  have hRtot : (sweepPOST files now st).2.totalFolders =
      l1.length + l2.length + 1 := by
    have : (sweepPOST files now st).2.totalFolders = (sweepInit files).totalFolders := by
      simp only [sweepPOST, sweep]
      exact htot
    rw [this]
    simp [sweepInit, hids]
    omega
  have hfailed : (sweepPOST files now st).2.failed = 1 := by
    rw [hR2, hf2]
    simp [addFailed]
    rw [hf1]
    rfl
  have hdetails : (sweepPOST files now st).2.details =
      ds1 ++ Detail.mk b "failed".toList (some msg) :: ds2 := by
    rw [hR2, hdet2]
    simp only [addFailed]
    rw [hdet1]
    simp [sweepInit]
  have hs1' : res1.alreadySynced + res1.newlyCreated = l1.length := by
    rw [hs1]
    simp [sweepInit]
  refine ⟨rfl, hfailed, ?_, ?_, ?_, ?_⟩
  · rw [hR2] at hRtot ⊢
    have hsum : (List.foldl (processOne files now) (st1, addFailed res1 b msg) l2).2.alreadySynced +
        (List.foldl (processOne files now) (st1, addFailed res1 b msg) l2).2.newlyCreated =
        l1.length + l2.length := by
      rw [hs2]
      simp only [addFailed]
      omega
    omega
  · rw [hdetails]
    simp
  · rw [hdetails]
    simp [hmap1, hmap2]
  · rw [hdetails]
    intro d hd hne
    rcases List.mem_append.mp hd with hd1 | hdc
    · exact hstat1 d hd1
    · rcases List.mem_cons.mp hdc with rfl | hd2
      · exact absurd rfl hne
      · exact hstat2 d hd2

/-- Witness for C6: three sessions `a`, `b`, `c`; the store's read for `b`
throws with message `boom`; the tally counts one failure, the other two
are created, and the failed detail carries the message. -/
theorem c6_failure_isolated_witness :
    (sweepPOST
        ["sessions/a/x.jpg".toList, "sessions/b/x.jpg".toList,
         "sessions/c/x.jpg".toList] 7
        ⟨fun _ => none,
         fun k => if k = "b".toList then some "boom".toList else none,
         fun _ => none⟩).1 = 200 ∧
    (sweepPOST
        ["sessions/a/x.jpg".toList, "sessions/b/x.jpg".toList,
         "sessions/c/x.jpg".toList] 7
        ⟨fun _ => none,
         fun k => if k = "b".toList then some "boom".toList else none,
         fun _ => none⟩).2.failed = 1 ∧
    (sweepPOST
        ["sessions/a/x.jpg".toList, "sessions/b/x.jpg".toList,
         "sessions/c/x.jpg".toList] 7
        ⟨fun _ => none,
         fun k => if k = "b".toList then some "boom".toList else none,
         fun _ => none⟩).2.alreadySynced +
        (sweepPOST
        ["sessions/a/x.jpg".toList, "sessions/b/x.jpg".toList,
         "sessions/c/x.jpg".toList] 7
        ⟨fun _ => none,
         fun k => if k = "b".toList then some "boom".toList else none,
         fun _ => none⟩).2.newlyCreated + 1 =
      (sweepPOST
        ["sessions/a/x.jpg".toList, "sessions/b/x.jpg".toList,
         "sessions/c/x.jpg".toList] 7
        ⟨fun _ => none,
         fun k => if k = "b".toList then some "boom".toList else none,
         fun _ => none⟩).2.totalFolders ∧
    Detail.mk "b".toList "failed".toList (some "boom".toList) ∈
      (sweepPOST
        ["sessions/a/x.jpg".toList, "sessions/b/x.jpg".toList,
         "sessions/c/x.jpg".toList] 7
        ⟨fun _ => none,
         fun k => if k = "b".toList then some "boom".toList else none,
         fun _ => none⟩).2.details ∧
    (sweepPOST
        ["sessions/a/x.jpg".toList, "sessions/b/x.jpg".toList,
         "sessions/c/x.jpg".toList] 7
        ⟨fun _ => none,
         fun k => if k = "b".toList then some "boom".toList else none,
         fun _ => none⟩).2.details.map Detail.sessionId =
      ["a".toList] ++ "b".toList :: ["c".toList] ∧
    ∀ d ∈ (sweepPOST
        ["sessions/a/x.jpg".toList, "sessions/b/x.jpg".toList,
         "sessions/c/x.jpg".toList] 7
        ⟨fun _ => none,
         fun k => if k = "b".toList then some "boom".toList else none,
         fun _ => none⟩).2.details, d.sessionId ≠ "b".toList →
      d.status = "already_exists".toList ∨ d.status = "created".toList :=
  c6_failure_isolated
    ["sessions/a/x.jpg".toList, "sessions/b/x.jpg".toList,
     "sessions/c/x.jpg".toList] 7
    ⟨fun _ => none,
     fun k => if k = "b".toList then some "boom".toList else none,
     fun _ => none⟩
    "b".toList "boom".toList ["a".toList] ["c".toList]
    (by decide) (by decide) (by decide) (Or.inl (by decide))

/-!
## Claim C3 — `createdAt` derivation
-/

lemma testAllDigits_iff (s : List Char) :
    testAllDigits s = true ↔ s ≠ [] ∧ ∀ c ∈ s, c.isDigit = true := by
  simp [testAllDigits, List.all_eq_true, List.isEmpty_iff]

/-- **C3** — For every session identifier processed by the sweep, the
synthesized record's `createdAt` equals the decimal value of the
identifier string if and only if the identifier consists entirely of
digits (and is nonempty — the capture group guarantees nonemptiness);
otherwise `createdAt` is the current time at sync. -/
theorem c3_createdAt_rule (files : List (List Char)) (sessionId : List Char)
    (now : Nat) :
    (buildSessionDoc files sessionId now).createdAt =
      if sessionId ≠ [] ∧ ∀ c ∈ sessionId, c.isDigit = true
      then digitsVal sessionId else now := by
  dsimp only [buildSessionDoc, buildCore]
  by_cases hp : sessionId ≠ [] ∧ ∀ c ∈ sessionId, c.isDigit = true
  · rw [if_pos hp, if_pos ((testAllDigits_iff sessionId).mpr hp)]
  · rw [if_neg hp, if_neg (fun hb => hp ((testAllDigits_iff sessionId).mp hb))]

/-!
## Claim C4 — presence of `originalImageUrl` / `derenderedImageUrl`
-/

/-- Counterexample to **C4** as stated: the claim requires
`originalImageUrl` to be non-null *iff* a file named exactly
`original.jpg` exists **directly** under the session's path (not in a
deeper subdirectory).  For the listing containing only
`sessions/s1/sub/original.jpg` — where `original.jpg` sits in a deeper
subdirectory and no `sessions/s1/original.jpg` object exists — the code
nevertheless sets `originalImageUrl`: the check uses each file's final
path segment, at any depth. -/
theorem c4_counterexample :
    (buildSessionDoc ["sessions/s1/sub/original.jpg".toList] "s1".toList
        0).originalImageUrl ≠ none ∧
    "sessions/s1/original.jpg".toList ∉
      ["sessions/s1/sub/original.jpg".toList] := by
  decide

/-- **C4 (amended)** — The synthesized record's `originalImageUrl` is
non-null iff some file under the session's path (at **any** depth) has
final path segment exactly `original.jpg`, and likewise
`derenderedImageUrl` for `derendered.jpg`; each is null otherwise. -/
theorem c4_image_urls_amended (files : List (List Char)) (sessionId : List Char)
    (now : Nat) :
    ((buildSessionDoc files sessionId now).originalImageUrl ≠ none ↔
      ∃ f ∈ files, sessPath sessionId <+: f ∧
        basename f = "original.jpg".toList) ∧
    ((buildSessionDoc files sessionId now).derenderedImageUrl ≠ none ↔
      ∃ f ∈ files, sessPath sessionId <+: f ∧
        basename f = "derendered.jpg".toList) := by
  constructor <;>
  · dsimp only [buildSessionDoc, buildCore]
    rw [ne_eq, ite_eq_right_iff]
    simp only [reduceCtorEq, imp_false, not_not, sessionFilesOf, List.mem_map,
      List.mem_filter, List.isPrefixOf_iff_prefix]
    constructor
    · rintro ⟨f, ⟨hf, hpre⟩, hbase⟩
      exact ⟨f, hf, hpre, hbase⟩
    · rintro ⟨f, hf, hpre, hbase⟩
      exact ⟨f, ⟨hf, hpre⟩, hbase⟩

/-!
## Claim C10 — an object directly under `sessions/` with no further `/`
-/

lemma extractSessionId_no_slash (x : List Char) (_hx : x ≠ [])
    (hsl : ∀ c ∈ x, c ≠ '/') :
    extractSessionId (sessionsLit ++ x) = none := by
  dsimp only [extractSessionId]
  rw [if_pos (by simp [ List.isPrefixOf_iff_prefix])]
  have hdrop : (sessionsLit ++ x).drop sessionsLit.length = x := List.drop_left _ _
  rw [hdrop]
  have htake : x.takeWhile (fun c => c ≠ '/') = x :=
    List.takeWhile_eq_self_iff.mpr (by simpa using hsl)
  rw [htake, List.drop_length]
  simp

lemma sessPath_not_pre (x id : List Char) (hsl : ∀ c ∈ x, c ≠ '/') :
    (sessPath id).isPrefixOf (sessionsLit ++ x) = false := by
  rw [Bool.eq_false_iff]
  intro h
  rw [ List.isPrefixOf_iff_prefix] at h
  have h2 : id ++ ['/'] <+: x := by
    have h3 : sessionsLit ++ (id ++ ['/']) <+: sessionsLit ++ x := by
      simpa [sessPath, List.append_assoc] using h
    exact (List.prefix_append_right_inj sessionsLit).mp h3
  exact hsl '/' (h2.subset (by simp)) rfl

lemma sessionFilesOf_ignore (x : List Char) (l1 l2 : List (List Char))
    (id : List Char) (hsl : ∀ c ∈ x, c ≠ '/') :
    sessionFilesOf (l1 ++ (sessionsLit ++ x) :: l2) id =
      sessionFilesOf (l1 ++ l2) id := by
  simp only [sessionFilesOf, List.filter_append, List.filter_cons,
    sessPath_not_pre x id hsl]
  simp

lemma buildSessionDoc_ignore (x : List Char) (l1 l2 : List (List Char))
    (id : List Char) (now : Nat) (hsl : ∀ c ∈ x, c ≠ '/') :
    buildSessionDoc (l1 ++ (sessionsLit ++ x) :: l2) id now =
      buildSessionDoc (l1 ++ l2) id now := by
  unfold buildSessionDoc
  rw [sessionFilesOf_ignore x l1 l2 id hsl]

lemma sessionFoldersOf_ignore (x : List Char) (l1 l2 : List (List Char))
    (hx : x ≠ []) (hsl : ∀ c ∈ x, c ≠ '/') :
    sessionFoldersOf (l1 ++ (sessionsLit ++ x) :: l2) =
      sessionFoldersOf (l1 ++ l2) := by
  rw [sessionFoldersOf_eq_foldl, sessionFoldersOf_eq_foldl, List.foldl_append,
    List.foldl_append, List.foldl_cons]
  congr 1
  unfold addFolder
  rw [extractSessionId_no_slash x hx hsl]

lemma processOne_ignore (x : List Char) (l1 l2 : List (List Char)) (now : Nat)
    (hsl : ∀ c ∈ x, c ≠ '/') :
    processOne (l1 ++ (sessionsLit ++ x) :: l2) now = processOne (l1 ++ l2) now := by
  funext acc id
  unfold processOne
  rw [buildSessionDoc_ignore x l1 l2 id now hsl]

/-- **C10** (implicit) — A storage object whose name is `sessions/<x>`
with no further `/` separator (a file directly under the prefix rather
than inside a per-session folder) contributes no session identifier: it
is excluded from the folder grouping (hence from `totalFolders`) and from
every per-session record, and both the write-mode sweep and the dry run
behave exactly as if the object were absent. -/
theorem c10_loose_object_ignored (x : List Char) (l1 l2 : List (List Char))
    (now : Nat) (st : Store) (hx : x ≠ []) (hsl : ∀ c ∈ x, c ≠ '/') :
    extractSessionId (sessionsLit ++ x) = none ∧
    sessionFoldersOf (l1 ++ (sessionsLit ++ x) :: l2) =
      sessionFoldersOf (l1 ++ l2) ∧
    sweep (l1 ++ (sessionsLit ++ x) :: l2) now st = sweep (l1 ++ l2) now st ∧
    dryRunGET (l1 ++ (sessionsLit ++ x) :: l2) st = dryRunGET (l1 ++ l2) st := by
  refine ⟨extractSessionId_no_slash x hx hsl,
    sessionFoldersOf_ignore x l1 l2 hx hsl, ?_, ?_⟩
  · simp only [sweep, sweepInit, sessionFoldersOf_ignore x l1 l2 hx hsl,
      processOne_ignore x l1 l2 now hsl]
  · simp only [dryRunGET, dryRun, dryInit, sessionFoldersOf_ignore x l1 l2 hx hsl]

/-- Witness for C10: the loose object `sessions/loose` (no trailing
segment) is ignored by both handlers on a concrete two-file listing. -/
theorem c10_loose_object_ignored_witness :
    extractSessionId (sessionsLit ++ "loose".toList) = none ∧
    sessionFoldersOf (["sessions/s1/original.jpg".toList] ++
        (sessionsLit ++ "loose".toList) :: ["sessions/s2/a.jpg".toList]) =
      sessionFoldersOf (["sessions/s1/original.jpg".toList] ++
        ["sessions/s2/a.jpg".toList]) ∧
    sweep (["sessions/s1/original.jpg".toList] ++
        (sessionsLit ++ "loose".toList) :: ["sessions/s2/a.jpg".toList]) 5
        ⟨fun _ => none, fun _ => none, fun _ => none⟩ =
      sweep (["sessions/s1/original.jpg".toList] ++ ["sessions/s2/a.jpg".toList]) 5
        ⟨fun _ => none, fun _ => none, fun _ => none⟩ ∧
    dryRunGET (["sessions/s1/original.jpg".toList] ++
        (sessionsLit ++ "loose".toList) :: ["sessions/s2/a.jpg".toList])
        ⟨fun _ => none, fun _ => none, fun _ => none⟩ =
      dryRunGET (["sessions/s1/original.jpg".toList] ++ ["sessions/s2/a.jpg".toList])
        ⟨fun _ => none, fun _ => none, fun _ => none⟩ :=
  c10_loose_object_ignored "loose".toList
    ["sessions/s1/original.jpg".toList] ["sessions/s2/a.jpg".toList] 5
    ⟨fun _ => none, fun _ => none, fun _ => none⟩
    (by decide) (by decide)

/-!
## Claim C5 — foundation try-on filename parsing

Spec-side characterisation of `foundation-<sku>-<digits>.jpg` occurring in
a filename: some decomposition with a nonempty hyphen-free sku and a
nonempty digit run (the JS regex is unanchored, so arbitrary text may
surround the occurrence).
-/

def MatchesFoundation (fn sku ds : List Char) : Prop :=
  ∃ pre post,
    fn = pre ++ (fdnTag ++ (sku ++ '-' :: (ds ++ (jpgLit ++ post)))) ∧
    sku ≠ [] ∧ (∀ c ∈ sku, c ≠ '-') ∧ ds ≠ [] ∧ ∀ c ∈ ds, c.isDigit = true

lemma dropWhile_head_false (p : Char → Bool) :
    ∀ (l : List Char) (c : Char) (r : List Char),
      l.dropWhile p = c :: r → p c = false := by
  intro l
  induction l with
  | nil => intro c r h; simp [List.dropWhile] at h
  | cons a t ih =>
    intro c r h
    rw [List.dropWhile_cons] at h
    split at h
    · exact ih c r h
    · rename_i hpa
      cases h
      exact Bool.eq_false_iff.mpr hpa

lemma takeWhile_append_cons (p : Char → Bool) :
    ∀ (a : List Char) (b : Char) (t : List Char),
      (∀ c ∈ a, p c = true) → p b = false →
      (a ++ b :: t).takeWhile p = a ∧ (a ++ b :: t).dropWhile p = b :: t := by
  intro a
  induction a with
  | nil =>
    intro b t _ hb
    simp [List.takeWhile_cons, List.dropWhile_cons, hb]
  | cons x xs ih =>
    intro b t ha hb
    have hx : p x = true := ha x (by simp)
    obtain ⟨h1, h2⟩ := ih b t (fun c hc => ha c (by simp [hc])) hb
    constructor
    · simp [List.takeWhile_cons, hx, h1]
    · simp [List.dropWhile_cons, hx, h2]

lemma dropWhile_eq_drop_len (p : Char → Bool) :
    ∀ l : List Char, l.dropWhile p = l.drop (l.takeWhile p).length := by
  intro l
  induction l with
  | nil => rfl
  | cons a t ih =>
    rw [List.dropWhile_cons, List.takeWhile_cons]
    split
    · simp [ih]
    · simp

lemma matchAfterTag_sound (l sku ds : List Char)
    (h : matchAfterTag l = some (sku, ds)) :
    ∃ post, l = sku ++ '-' :: (ds ++ (jpgLit ++ post)) ∧
      sku ≠ [] ∧ (∀ c ∈ sku, c ≠ '-') ∧ ds ≠ [] ∧ ∀ c ∈ ds, c.isDigit = true := by
  dsimp only [matchAfterTag] at h
  split at h
  · exact absurd h (by simp)
  · rename_i c r2 hdw
    split at h
    · exact absurd h (by simp)
    · rename_i hsku
      split at h
      · exact absurd h (by simp)
      · rename_i hds
        split at h
        · rename_i hjpg
          injection h with h'
          rw [Prod.mk.injEq] at h'
          obtain ⟨hskuEq, hdsEq⟩ := h'
          have hc : c = '-' := by
            have := dropWhile_head_false _ l c r2 hdw
            simpa using this
          subst hc
          rw [ List.isPrefixOf_iff_prefix] at hjpg
          obtain ⟨post, hpost⟩ := hjpg
          have hr2 : r2 = ds ++ (jpgLit ++ post) := by
            conv_lhs => rw [← List.takeWhile_append_dropWhile Char.isDigit r2]
            rw [hdsEq]
            congr 1
            rw [dropWhile_eq_drop_len Char.isDigit r2]
            exact hpost.symm
          refine ⟨post, ?_, ?_, ?_, ?_, ?_⟩
          · conv_lhs =>
              rw [← List.takeWhile_append_dropWhile (fun c => decide (c ≠ '-')) l]
            rw [hdw, hskuEq, hr2]
          · rw [← hskuEq]; exact hsku
          · intro c hc
            rw [← hskuEq] at hc
            simpa using List.mem_takeWhile_imp hc
          · rw [← hdsEq]; exact hds
          · intro c hc
            rw [← hdsEq] at hc
            exact List.mem_takeWhile_imp hc
        · exact absurd h (by simp)

lemma matchAfterTag_complete (sku ds post : List Char)
    (h1 : sku ≠ []) (h2 : ∀ c ∈ sku, c ≠ '-')
    (h3 : ds ≠ []) (h4 : ∀ c ∈ ds, c.isDigit = true) :
    matchAfterTag (sku ++ '-' :: (ds ++ (jpgLit ++ post))) = some (sku, ds) := by
  obtain ⟨ht1, ht2⟩ := takeWhile_append_cons (fun c => decide (c ≠ '-')) sku '-'
    (ds ++ (jpgLit ++ post)) (fun c hc => by simpa using h2 c hc) (by simp)
  have hshape : jpgLit ++ post = '.' :: ('j' :: 'p' :: 'g' :: post) := rfl
  obtain ⟨hd1, _⟩ := takeWhile_append_cons Char.isDigit ds '.'
    ('j' :: 'p' :: 'g' :: post) h4 (by decide)
  have hds : (ds ++ (jpgLit ++ post)).takeWhile Char.isDigit = ds := by
    rw [hshape]
    exact hd1
  have hdrop : (ds ++ (jpgLit ++ post)).drop ds.length = jpgLit ++ post :=
    List.drop_left ds (jpgLit ++ post)
  dsimp only [matchAfterTag]
  rw [ht2]
  simp only [ht1, hds, hdrop]
  rw [if_neg h1, if_neg h3,
    if_pos (by rw [ List.isPrefixOf_iff_prefix]; exact List.prefix_append _ _)]

lemma findFoundation_sound :
    ∀ (fn sku ds : List Char), findFoundation fn = some (sku, ds) →
      MatchesFoundation fn sku ds := by
  intro fn
  induction fn with
  | nil => intro sku ds h; simp [findFoundation] at h
  | cons c rest ih =>
    intro sku ds h
    rw [findFoundation] at h
    split at h
    · rename_i hpre
      split at h
      · rename_i r hm
        injection h with h'
        subst h'
        rw [ List.isPrefixOf_iff_prefix] at hpre
        obtain ⟨t, ht⟩ := hpre
        have hdrop : (c :: rest).drop fdnTag.length = t := by
          rw [← ht, List.drop_left]
        rw [hdrop] at hm
        obtain ⟨post, hteq, h1, h2, h3, h4⟩ := matchAfterTag_sound t sku ds hm
        exact ⟨[], post, by rw [← ht, hteq, List.nil_append], h1, h2, h3, h4⟩
      · rename_i hm
        obtain ⟨pre, post, heq, h1, h2, h3, h4⟩ := ih sku ds h
        exact ⟨c :: pre, post, by rw [List.cons_append, heq], h1, h2, h3, h4⟩
    · obtain ⟨pre, post, heq, h1, h2, h3, h4⟩ := ih sku ds h
      exact ⟨c :: pre, post, by rw [List.cons_append, heq], h1, h2, h3, h4⟩

lemma findFoundation_at_tag (y : List Char) :
    findFoundation (fdnTag ++ y) =
      match matchAfterTag y with
      | some r => some r
      | none => findFoundation ("oundation-".toList ++ y) := by
  rw [show fdnTag ++ y = 'f' :: ("oundation-".toList ++ y) from rfl, findFoundation]
  rw [if_pos (by
    rw [ List.isPrefixOf_iff_prefix]
    exact ⟨y, rfl⟩)]
  rfl

lemma findFoundation_complete :
    ∀ (pre fn sku ds post : List Char),
      fn = pre ++ (fdnTag ++ (sku ++ '-' :: (ds ++ (jpgLit ++ post)))) →
      sku ≠ [] → (∀ c ∈ sku, c ≠ '-') → ds ≠ [] → (∀ c ∈ ds, c.isDigit = true) →
      (findFoundation fn).isSome = true := by
  intro pre
  induction pre with
  | nil =>
    intro fn sku ds post heq h1 h2 h3 h4
    subst heq
    rw [List.nil_append, findFoundation_at_tag,
      matchAfterTag_complete sku ds post h1 h2 h3 h4]
    rfl
  | cons a pre' ih =>
    intro fn sku ds post heq h1 h2 h3 h4
    subst heq
    rw [List.cons_append, findFoundation]
    split
    · split
      · simp
      · exact ih _ sku ds post rfl h1 h2 h3 h4
    · exact ih _ sku ds post rfl h1 h2 h3 h4

lemma forall2_self_map {α β : Type} (R : α → β → Prop) (g : α → β) :
    ∀ l : List α, (∀ x ∈ l, R x (g x)) → List.Forall₂ R l (l.map g) := by
  intro l
  induction l with
  | nil => intro _; simp
  | cons a t ih =>
    intro h
    simp only [List.map_cons]
    exact List.Forall₂.cons (h a (by simp)) (ih (fun x hx => h x (by simp [hx])))

/-- **C5** — For every file under a session's path whose name contains
`foundation-` and ends in `.jpg`, the sweep produces exactly one
`foundationTryons` entry (the entries correspond one-to-one, in order, to
those files): if the file's basename matches
`foundation-<sku>-<digits>.jpg` (sku a nonempty run of non-hyphen
characters, digits nonempty; surrounding text allowed, as the regex is
unanchored) the entry carries that sku and those digits parsed as the
timestamp; otherwise it carries sku "unknown" and the sync-time
timestamp.  The synthesis is total — no filename makes it fail. -/
theorem c5_foundation_tryons (files : List (List Char)) (sessionId : List Char)
    (now : Nat) :
    (buildSessionDoc files sessionId now).foundationTryons.length =
      (foundationFilesOf (sessionFilesOf files sessionId)).length ∧
    List.Forall₂
      (fun f e =>
        e.imageUrl = storageHost ++ bucketName ++ ['/'] ++ f ∧
        ((∃ sku ds, MatchesFoundation (basename f) sku ds ∧
            e.sku = sku ∧ e.timestamp = digitsVal ds) ∨
         ((∀ sku ds, ¬ MatchesFoundation (basename f) sku ds) ∧
            e.sku = "unknown".toList ∧ e.timestamp = now)))
      (foundationFilesOf (sessionFilesOf files sessionId))
      (buildSessionDoc files sessionId now).foundationTryons := by
  have hfe : (buildSessionDoc files sessionId now).foundationTryons =
      (foundationFilesOf (sessionFilesOf files sessionId)).map (mkTryonEntry now) := by
    dsimp only [buildSessionDoc, buildCore]
    rcases hl : foundationFilesOf (sessionFilesOf files sessionId) with _ | ⟨f, fs⟩
    · simp
    · simp
  rw [hfe]
  refine ⟨by simp, ?_⟩
  apply forall2_self_map
  intro f hf
  rcases hm : findFoundation (basename f) with _ | ⟨sku, ds⟩
  · refine ⟨?_, Or.inr ⟨?_, ?_, ?_⟩⟩
    · dsimp only [mkTryonEntry]
      rw [hm]
    · intro sku ds hM
      obtain ⟨pre, post, heq, h1, h2, h3, h4⟩ := hM
      have hsome := findFoundation_complete pre (basename f) sku ds post heq h1 h2 h3 h4
      rw [hm] at hsome
      simp at hsome
    · dsimp only [mkTryonEntry]
      rw [hm]
    · dsimp only [mkTryonEntry]
      rw [hm]
  · obtain ⟨pre, post, heq, h1, h2, h3, h4⟩ := findFoundation_sound (basename f) sku ds hm
    refine ⟨?_, Or.inl ⟨sku, ds, ⟨pre, post, heq, h1, h2, h3, h4⟩, ?_, ?_⟩⟩
    · dsimp only [mkTryonEntry]
      rw [hm]
    · dsimp only [mkTryonEntry]
      rw [hm]
    · dsimp only [mkTryonEntry]
      rw [hm]

/-!
## Claims C7 and C8 — the generation handler
-/

lemma findInline_none (resp : GenResponse)
    (h : ∀ cand ∈ resp.candidates, ∀ p ∈ cand.parts, p.inlineData = none) :
    findInline resp = none := by
  dsimp only [findInline]
  rcases hc : resp.candidates with _ | ⟨c, cs⟩
  · rfl
  · simp only [List.head?_cons]
    have hfind : c.parts.find? (fun p => p.inlineData.isSome) = none := by
      rw [List.find?_eq_none]
      intro p hp
      simp [h c (by rw [hc]; simp) p hp]
    simp [hfind]

/-- **C7** — For every generation-handler invocation (image supplied, API
key configured) whose model response contains no part with inline image
data and no text, the handler responds with HTTP status 200 and the body
`{error: "No image generated by model", rawText: undefined}` — the
`rawText` field absent (`none`) — not with an error status. -/
theorem c7_no_image_no_text (req : GenRequest) (apiKey : Option (List Char))
    (resp : GenResponse) (persist : Except (List Char) Unit)
    (himg : isFalsyStr req.image = false) (hkey : isFalsyStr apiKey = false)
    (hparts : ∀ cand ∈ resp.candidates, ∀ p ∈ cand.parts, p.inlineData = none)
    (htext : resp.text = none) :
    generatePOST req apiKey resp persist =
      { status := 200
        body := GenBody.noImage "No image generated by model".toList none
        stored := false } := by
  dsimp only [generatePOST]
  rw [himg, hkey, findInline_none resp hparts]
  simp [htext]

/-- Witness for C7: a concrete request with an image and key, a response
with one part carrying neither inline data nor text. -/
theorem c7_no_image_no_text_witness :
    generatePOST ⟨some "img".toList, some "image/jpeg".toList⟩
        (some "key".toList)
        ⟨[⟨[⟨none, none⟩]⟩], none⟩ (Except.ok ()) =
      { status := 200
        body := GenBody.noImage "No image generated by model".toList none
        stored := false } :=
  c7_no_image_no_text ⟨some "img".toList, some "image/jpeg".toList⟩
    (some "key".toList) ⟨[⟨[⟨none, none⟩]⟩], none⟩ (Except.ok ())
    (by decide) (by decide) (by decide) rfl

/-- **C8** — For every generation-handler invocation in which an inline
image part is found, the persistence outcome (storage uploads and the
document-store write, which can fail) does not change the handler's
response: the response is 200 with the extracted image bytes and MIME
type, identical for every persistence outcome (in particular identical to
the success outcome); only the `stored` side-effect flag differs. -/
theorem c8_persist_isolated (req : GenRequest) (apiKey : Option (List Char))
    (resp : GenResponse) (persist : Except (List Char) Unit) (io : InlineData)
    (himg : isFalsyStr req.image = false) (hkey : isFalsyStr apiKey = false)
    (hfind : findInline resp = some io) :
    (generatePOST req apiKey resp persist).status = 200 ∧
    (generatePOST req apiKey resp persist).body =
      GenBody.image io.data io.mimeType ∧
    ∀ persist2 : Except (List Char) Unit,
      (generatePOST req apiKey resp persist2).status =
        (generatePOST req apiKey resp persist).status ∧
      (generatePOST req apiKey resp persist2).body =
        (generatePOST req apiKey resp persist).body := by
  have hmain : ∀ p : Except (List Char) Unit,
      generatePOST req apiKey resp p =
        { status := 200, body := GenBody.image io.data io.mimeType
          stored := p.isOk } := by
    intro p
    dsimp only [generatePOST]
    rw [himg, hkey, hfind]
    rfl
  refine ⟨by rw [hmain], by rw [hmain], fun p2 => ⟨by rw [hmain, hmain], by rw [hmain, hmain]⟩⟩

/-- Witness for C8: a concrete invocation whose response has an inline
image part; the response is the same whether persistence fails or
succeeds. -/
theorem c8_persist_isolated_witness :
    (generatePOST ⟨some "img".toList, none⟩ (some "key".toList)
        ⟨[⟨[⟨some ⟨"outbytes".toList, "image/png".toList⟩, none⟩]⟩], none⟩
        (Except.error "storage down".toList)).status = 200 ∧
    (generatePOST ⟨some "img".toList, none⟩ (some "key".toList)
        ⟨[⟨[⟨some ⟨"outbytes".toList, "image/png".toList⟩, none⟩]⟩], none⟩
        (Except.error "storage down".toList)).body =
      GenBody.image "outbytes".toList "image/png".toList ∧
    ∀ persist2 : Except (List Char) Unit,
      (generatePOST ⟨some "img".toList, none⟩ (some "key".toList)
          ⟨[⟨[⟨some ⟨"outbytes".toList, "image/png".toList⟩, none⟩]⟩], none⟩
          persist2).status =
        (generatePOST ⟨some "img".toList, none⟩ (some "key".toList)
          ⟨[⟨[⟨some ⟨"outbytes".toList, "image/png".toList⟩, none⟩]⟩], none⟩
          (Except.error "storage down".toList)).status ∧
      (generatePOST ⟨some "img".toList, none⟩ (some "key".toList)
          ⟨[⟨[⟨some ⟨"outbytes".toList, "image/png".toList⟩, none⟩]⟩], none⟩
          persist2).body =
        (generatePOST ⟨some "img".toList, none⟩ (some "key".toList)
          ⟨[⟨[⟨some ⟨"outbytes".toList, "image/png".toList⟩, none⟩]⟩], none⟩
          (Except.error "storage down".toList)).body :=
  c8_persist_isolated ⟨some "img".toList, none⟩ (some "key".toList)
    ⟨[⟨[⟨some ⟨"outbytes".toList, "image/png".toList⟩, none⟩]⟩], none⟩
    (Except.error "storage down".toList)
    ⟨"outbytes".toList, "image/png".toList⟩
    (by decide) (by decide) (by decide)
